import Mathlib

/-!
A verification development for the peer-to-peer game-room application.

The TypeScript sources are shallowly embedded:

* JavaScript strings are embedded as `List Char` where character-level
  operations matter (`roomCode.ts`), and as Lean `String` where the code
  only compares them for equality (device identifiers, player names).
* JavaScript `Map` objects are embedded as association lists with
  JS-`Map` semantics: `Map.set` updates an existing key in place,
  otherwise appends; `Map.get` finds the unique binding; `Map.delete`
  removes the binding.
* The external game engines (`games/gameEngine.ts`) are opaque: they are
  embedded as a record of functions over an opaque state type `G`.  The
  "return the same reference to signal rejection" convention of
  `processGameAction` / `runXBotTurn` is embedded as an `Option`-valued
  result, `none` standing for "the same reference was returned" and
  `some g` for "a fresh state `g` was returned".
* `setTimeout` timers are embedded as entries of an explicit pending-timer
  table plus separate "fire" functions modelling the timer callbacks.
* Host handlers return the successor host state together with the list of
  messages sent, in emission order (`roomB`/`gameB` are broadcasts, `uni`
  is a unicast to one channel).
-/

/-! ## `utils/roomCode.ts` -/

/-- The room-code alphabet (`CHARS` in `roomCode.ts`): ambiguous characters
I, O, 0, 1 are excluded. -/
def CHARS : List Char := ("ABCDEFGHJKLMNPQRSTUVWXYZ23456789").data

/-- JS `String.prototype.toUpperCase` on the ASCII range. -/
def jsToUpper (s : List Char) : List Char := s.map Char.toUpper

/-- `generateRoomCode`: four characters drawn from `CHARS`; the four
`Math.random()` draws are the explicit argument `picks`. -/
def generateRoomCode (picks : Fin 4 → Fin CHARS.length) : List Char :=
  [CHARS.get (picks 0), CHARS.get (picks 1), CHARS.get (picks 2), CHARS.get (picks 3)]

/-- `validateRoomCode`: the regex test `/^[A-Z0-9]{4}$/.test(code.toUpperCase())`. -/
def validateRoomCode (code : List Char) : Bool :=
  let u := jsToUpper code
  u.length == 4 &&
    u.all (fun ch =>
      (decide ('A' ≤ ch) && decide (ch ≤ 'Z')) || (decide ('0' ≤ ch) && decide (ch ≤ '9')))

/-- `peerIdFromRoom`: prefix the namespace tag to the uppercased code. -/
def peerIdFromRoom (roomCode : List Char) : List Char :=
  ("cfg-").data ++ jsToUpper roomCode

/-- `roomFromPeerId`: strip the namespace tag when present, else `null`. -/
def roomFromPeerId (peerId : List Char) : Option (List Char) :=
  if peerId.take 4 = ("cfg-").data then some (peerId.drop 4) else none

/-- C9: every generated room code has length 4 over the 32-character
alphabet that excludes I, O, 0, 1; the code→address mapping prefixes the
fixed tag to the uppercased code; and the mapping round-trips:
`roomFromPeerId (peerIdFromRoom c) = some (uppercase of c)`. -/
theorem roomCode_alphabet_and_roundTrip :
    (∀ picks : Fin 4 → Fin CHARS.length,
      (generateRoomCode picks).length = 4 ∧ ∀ ch ∈ generateRoomCode picks, ch ∈ CHARS) ∧
    CHARS.length = 32 ∧
    ('I' ∉ CHARS ∧ 'O' ∉ CHARS ∧ '0' ∉ CHARS ∧ '1' ∉ CHARS) ∧
    (∀ c : List Char, peerIdFromRoom c = ("cfg-").data ++ jsToUpper c) ∧
    (∀ c : List Char, roomFromPeerId (peerIdFromRoom c) = some (jsToUpper c)) := by
  refine ⟨?_, by decide, by decide, fun c => rfl, ?_⟩
  · intro picks
    refine ⟨rfl, ?_⟩
    intro ch hch
    simp only [generateRoomCode, List.mem_cons, List.not_mem_nil, or_false] at hch
    rcases hch with h | h | h | h <;> (subst h; exact List.get_mem ..)
  · intro c
    have h4 : (("cfg-").data).length = 4 := rfl
    unfold roomFromPeerId peerIdFromRoom
    rw [← h4, List.take_left, List.drop_left]
    simp

/-- Evaluation of C9 at a concrete input. -/
theorem roomCode_alphabet_and_roundTrip_witness :
    roomFromPeerId (peerIdFromRoom (("ab2z").data)) = some (("AB2Z").data) := by
  have h := roomCode_alphabet_and_roundTrip.2.2.2.2 (("ab2z").data)
  rw [h]
  decide

/-- C10: `validateRoomCode` accepts every generated code, but is strictly
more permissive: it accepts 4-character alphanumeric strings
(case-insensitively) containing the ambiguous characters that
`generateRoomCode` never emits, e.g. "AB01" and "ab01", although no
generated code ever equals "AB01". -/
theorem validateRoomCode_more_permissive_than_generator :
    (∀ picks : Fin 4 → Fin CHARS.length, validateRoomCode (generateRoomCode picks) = true) ∧
    validateRoomCode (("AB01").data) = true ∧
    validateRoomCode (("ab01").data) = true ∧
    (∀ picks : Fin 4 → Fin CHARS.length, generateRoomCode picks ≠ ("AB01").data) := by
  refine ⟨?_, by decide, by decide, ?_⟩
  · intro picks
    have hall : ∀ ch ∈ CHARS, (decide ('A' ≤ Char.toUpper ch) && decide (Char.toUpper ch ≤ 'Z')
        || (decide ('0' ≤ Char.toUpper ch) && decide (Char.toUpper ch ≤ '9'))) = true := by
      decide
    simp only [validateRoomCode, generateRoomCode, jsToUpper, List.map_cons, List.map_nil,
      List.all_cons, List.all_nil, Bool.and_true, List.length_cons, List.length_nil]
    rw [hall _ (List.get_mem ..), hall _ (List.get_mem ..), hall _ (List.get_mem ..),
      hall _ (List.get_mem ..)]
    decide
  · intro picks h
    have h2 : generateRoomCode picks ≠ ("AB01").data := by
      intro heq
      have hmem : '0' ∈ generateRoomCode picks := by
        rw [heq]; decide
      have : '0' ∈ CHARS := by
        have hc := (roomCode_alphabet_and_roundTrip.1 picks).2 '0' hmem
        exact hc
      revert this
      decide
    exact h2 h

/-- Evaluation of C10 at a concrete input. -/
theorem validateRoomCode_more_permissive_than_generator_witness :
    validateRoomCode (("AB01").data) = true ∧
    generateRoomCode (fun _ => ⟨0, by decide⟩) ≠ ("AB01").data :=
  ⟨validateRoomCode_more_permissive_than_generator.2.1,
   validateRoomCode_more_permissive_than_generator.2.2.2 (fun _ => ⟨0, by decide⟩)⟩

/-! ## Data model (`networking/types.ts`, as used by `roomStore.tsx`) -/

/-- `GameType`. -/
inductive GameType where
  | yahtzee
  | hearts
  | battleship
  | liarsDice
  | poker
deriving DecidableEq, Repr

/-- `RoomState.phase`. -/
inductive Phase where
  | lobby
  | playing
  | finished
deriving DecidableEq, Repr

/-- `Player` (the fields constructed and read by `roomStore.tsx`). -/
structure Player where
  id : String
  name : String
  isBot : Bool
  isHost : Bool
  connected : Bool
deriving DecidableEq, Repr

/-- `RoomState` (the fields constructed and read by `roomStore.tsx`). -/
structure RoomState where
  roomCode : String
  gameType : GameType
  players : List Player
  phase : Phase
  hostId : String
deriving DecidableEq, Repr

/-! ## JS `Map` embedding

`Map.set` updates an existing key in place, otherwise appends;
`Map.get` returns the unique binding; `Map.delete` removes it. -/

/-- JS `Map.prototype.set`. -/
def mapSet {κ ν : Type} [DecidableEq κ] (k : κ) (v : ν) : List (κ × ν) → List (κ × ν)
  | [] => [(k, v)]
  | e :: rest => if e.1 = k then (k, v) :: rest else e :: mapSet k v rest

/-- JS `Map.prototype.get`. -/
def mapGet {κ ν : Type} [DecidableEq κ] (k : κ) : List (κ × ν) → Option ν
  | [] => none
  | e :: rest => if e.1 = k then some e.2 else mapGet k rest

/-- JS `Map.prototype.delete`. -/
def mapDel {κ ν : Type} [DecidableEq κ] (k : κ) : List (κ × ν) → List (κ × ν)
  | [] => []
  | e :: rest => if e.1 = k then rest else e :: mapDel k rest

/-! ## The external game engine (`games/gameEngine.ts`)

The engine state is an opaque type `G`.  The code signals rejection by
returning the *same reference*; this is embedded as an `Option`: `none`
stands for "the same reference was returned", `some g` for a fresh state. -/

/-- Action payloads. `leaveTable` is the synthetic poker action
`{ type: 'leave-table' }`, `resolveTrick` the hearts `{ type: 'resolve-trick' }`;
all other client payloads are opaque (`raw`). -/
inductive ActionPayload where
  | leaveTable
  | resolveTrick
  | raw (n : Nat)
deriving DecidableEq, Repr

/-- The external game-engine contract consumed by `roomStore.tsx`. -/
structure GameEngine (G : Type) where
  /-- `processGameAction(gameType, state, action, playerId)`; the host may pass
  `null` for the state (embedded `none`), and `none` as a result stands for
  "returned the same reference" (action rejected). -/
  processGameAction : GameType → Option G → ActionPayload → String → Option G
  /-- `checkGameOver(gameType, state)`. -/
  checkGameOver : GameType → G → Bool
  /-- `createInitialGameState(gameType, players)`. -/
  createInitialGameState : GameType → List Player → G
  /-- The per-game `runXBotTurn` dispatch inside `runSingleBotTurn`; `none`
  stands for "returned the same reference" (no bot action available). -/
  runBotTurn : GameType → G → Option G

/-- `runSingleBotTurn` (`gameEngine.ts`): a finished game is returned
unchanged, otherwise one single bot turn is run. -/
def runSingleBotTurn {G : Type} (E : GameEngine G) (gt : GameType) (g : G) : Option G :=
  if E.checkGameOver gt g then none else E.runBotTurn gt g

/-! ## Host-side state of `RoomProvider` (`roomStore.tsx`) -/

/-- One message sent by the host.  `roomB`/`gameB` are broadcasts to every
open connection; `uni conn g` is `conn.send({type:'game-state', state: g})`
to a single channel. -/
inductive HostOutput (G : Type) where
  | roomB (rs : RoomState)
  | gameB (g : G)
  | uni (conn : Nat) (g : G)
deriving DecidableEq, Repr

/-- Grace period before a dropped client is marked disconnected
(`GRACE_PERIOD_MS` in the `conn.on('close')` handler). -/
def GRACE_PERIOD_MS : Nat := 15000

/-- The host-side mutable state of `RoomProvider`: the room (`roomRef`),
the opaque game state (`gameStateRef`, `none` = `null`), the connection
registry `connectionsRef : deviceId → connection`, the reverse map
`peerDeviceMapRef : conn.peer → deviceId` (connections are embedded as
their numeric peer handles), and the pending grace-period timer table
`disconnectTimersRef : deviceId → timer duration`. -/
structure HostState (G : Type) where
  room : Option RoomState
  gameState : Option G
  connections : List (String × Nat)
  peerDeviceMap : List (Nat × String)
  disconnectTimers : List (String × Nat)
deriving DecidableEq, Repr

/-- The `case 'join'` branch of `handleConnection`'s data handler. -/
def handleJoin {G : Type} (conn : Nat) (clientDeviceId playerName : String)
    (s : HostState G) : HostState G × List (HostOutput G) :=
  match s.room with
  | none => (s, [])
  | some currentRoom =>
    let pdm := mapSet conn clientDeviceId s.peerDeviceMap
    match currentRoom.players.find? (fun p => p.id = clientDeviceId) with
    | some _ =>
      -- Reconnecting player: cancel any pending grace-period timer,
      -- rebind the connection, set connected/name, broadcast room-state,
      -- and if mid-game unicast the current game-state to this channel.
      let updatedRoom : RoomState :=
        { currentRoom with
          players := currentRoom.players.map (fun p =>
            if p.id = clientDeviceId then { p with connected := true, name := playerName } else p) }
      let s2 : HostState G :=
        { s with
          peerDeviceMap := pdm
          disconnectTimers := mapDel clientDeviceId s.disconnectTimers
          connections := mapSet clientDeviceId conn s.connections
          room := some updatedRoom }
      (s2, HostOutput.roomB updatedRoom ::
        (if currentRoom.phase ≠ Phase.lobby then
          match s.gameState with
          | some g => [HostOutput.uni conn g]
          | none => []
        else []))
    | none =>
      -- New player: append Player{connected:true}, bind the connection,
      -- broadcast room-state.
      let newPlayer : Player :=
        { id := clientDeviceId, name := playerName, isBot := false, isHost := false,
          connected := true }
      let updatedRoom : RoomState :=
        { currentRoom with players := currentRoom.players ++ [newPlayer] }
      let s2 : HostState G :=
        { s with
          peerDeviceMap := pdm
          connections := mapSet clientDeviceId conn s.connections
          room := some updatedRoom }
      (s2, [HostOutput.roomB updatedRoom])

/-- The `case 'action'` branch of `handleConnection`'s data handler. -/
def handleAction {G : Type} (E : GameEngine G) (conn : Nat) (payload : ActionPayload)
    (s : HostState G) : HostState G × List (HostOutput G) :=
  match s.room with
  | none => (s, [])
  | some currentRoom =>
    if currentRoom.phase = Phase.playing then
      match mapGet conn s.peerDeviceMap with
      | none => (s, [])
      | some senderDeviceId =>
        match E.processGameAction currentRoom.gameType s.gameState payload senderDeviceId with
        | none => (s, [])
        | some newGs =>
          if E.checkGameOver currentRoom.gameType newGs = true ∧
              currentRoom.gameType ≠ GameType.poker then
            let finishedRoom : RoomState := { currentRoom with phase := Phase.finished }
            ({ s with gameState := some newGs, room := some finishedRoom },
             [HostOutput.gameB newGs, HostOutput.roomB finishedRoom])
          else
            ({ s with gameState := some newGs }, [HostOutput.gameB newGs])
    else (s, [])

/-- The `case 'leave'` branch of `handleConnection`'s data handler. -/
def handleLeave {G : Type} (E : GameEngine G) (conn : Nat)
    (s : HostState G) : HostState G × List (HostOutput G) :=
  match s.room with
  | none => (s, [])
  | some currentRoom =>
    match mapGet conn s.peerDeviceMap with
    | none => (s, [])
    | some leavingDeviceId =>
      -- For poker during play, process a leave-table action first.
      let step1 : Option G × List (HostOutput G) :=
        if currentRoom.gameType = GameType.poker ∧ currentRoom.phase = Phase.playing ∧
            s.gameState.isSome = true then
          match E.processGameAction GameType.poker s.gameState ActionPayload.leaveTable
              leavingDeviceId with
          | some newGs => (some newGs, [HostOutput.gameB newGs])
          | none => (s.gameState, [])
        else (s.gameState, [])
      let updatedRoom2 : RoomState :=
        { currentRoom with
          players := currentRoom.players.filter (fun p => p.id ≠ leavingDeviceId) }
      ({ s with
          room := some updatedRoom2
          gameState := step1.1
          connections := mapDel leavingDeviceId s.connections
          peerDeviceMap := mapDel conn s.peerDeviceMap },
       step1.2 ++ [HostOutput.roomB updatedRoom2])

/-- The `conn.on('close')` handler: immediately drop the registry entries
and start the single-shot grace-period timer; the player's `connected`
flag is not yet touched and nothing is broadcast. -/
def handleClose {G : Type} (conn : Nat) (s : HostState G) : HostState G :=
  match s.room with
  | none => s
  | some _ =>
    match mapGet conn s.peerDeviceMap with
    | none => s
    | some disconnectedDeviceId =>
      { s with
        connections := mapDel disconnectedDeviceId s.connections
        peerDeviceMap := mapDel conn s.peerDeviceMap
        disconnectTimers := mapSet disconnectedDeviceId GRACE_PERIOD_MS s.disconnectTimers }

/-- The grace-period timer callback for `deviceId` (the `setTimeout` body in
the close handler): remove itself from the timer table and mark the player
disconnected (with a room-state broadcast) only if it still exists and is
still marked connected. -/
def fireGraceTimer {G : Type} (deviceId : String)
    (s : HostState G) : HostState G × List (HostOutput G) :=
  let s1 : HostState G := { s with disconnectTimers := mapDel deviceId s.disconnectTimers }
  match s1.room with
  | none => (s1, [])
  | some latestRoom =>
    match latestRoom.players.find? (fun p => p.id = deviceId) with
    | none => (s1, [])
    | some player =>
      if player.connected then
        let updatedRoom : RoomState :=
          { latestRoom with
            players := latestRoom.players.map (fun p =>
              if p.id = deviceId then { p with connected := false } else p) }
        ({ s1 with room := some updatedRoom }, [HostOutput.roomB updatedRoom])
      else (s1, [])

/-- `createRoom` (the pure room construction): a fresh room whose only
player is the host, `phase = 'lobby'`, `hostId = deviceId`. -/
def createRoom (deviceId playerName : String) (gameType : GameType)
    (roomCode : String) : RoomState :=
  { roomCode := roomCode
    gameType := gameType
    players := [{ id := deviceId, name := playerName, isBot := false, isHost := true,
                  connected := true }]
    phase := Phase.lobby
    hostId := deviceId }

/-- JS `Map` deletion of the first entry with a given *value* (the reverse-map
cleanup loop in `removePlayer`). -/
def mapDelFirstVal {κ : Type} (v : String) : List (κ × String) → List (κ × String)
  | [] => []
  | e :: rest => if e.2 = v then rest else e :: mapDelFirstVal v rest

/-- `removePlayer(playerId)` (host only). -/
def removePlayer {G : Type} (isHost : Bool) (playerId : String)
    (s : HostState G) : HostState G × List (HostOutput G) :=
  if isHost = false then (s, [])
  else
    match s.room with
    | none => (s, [])
    | some room =>
      let updatedRoom : RoomState :=
        { room with players := room.players.filter (fun p => p.id ≠ playerId) }
      ({ s with
          room := some updatedRoom
          connections := mapDel playerId s.connections
          peerDeviceMap := mapDelFirstVal playerId s.peerDeviceMap },
       [HostOutput.roomB updatedRoom])

/-- `BOT_NAMES`. -/
def BOT_NAMES : List String :=
  [("Nova"), ("Pixel"), ("Byte"), ("Chip"), ("Blaze"), ("Echo"), ("Neon"), ("Volt")]

/-- `addBot` (host only); the randomly generated `botId` is an argument. -/
def addBot {G : Type} (isHost : Bool) (botId : String)
    (s : HostState G) : HostState G × List (HostOutput G) :=
  if isHost = false then (s, [])
  else
    match s.room with
    | none => (s, [])
    | some room =>
      let usedNames := room.players.map (fun p => p.name)
      let availableNames := BOT_NAMES.filter (fun n => ¬ usedNames.contains n)
      let botName := availableNames.headD (("Bot ") ++ toString room.players.length)
      let bot : Player :=
        { id := botId, name := botName, isBot := true, isHost := false, connected := true }
      let updatedRoom : RoomState := { room with players := room.players ++ [bot] }
      ({ s with room := some updatedRoom }, [HostOutput.roomB updatedRoom])

/-- `startGame` (host only). -/
def startGame {G : Type} (E : GameEngine G) (isHost : Bool)
    (s : HostState G) : HostState G × List (HostOutput G) :=
  if isHost = false then (s, [])
  else
    match s.room with
    | none => (s, [])
    | some room =>
      let gs := E.createInitialGameState room.gameType room.players
      let startedRoom : RoomState := { room with phase := Phase.playing }
      ({ s with room := some startedRoom, gameState := some gs },
       [HostOutput.roomB startedRoom, HostOutput.gameB gs])

/-- `playAgain` (host only). -/
def playAgain {G : Type} (E : GameEngine G) (isHost : Bool)
    (s : HostState G) : HostState G × List (HostOutput G) :=
  if isHost = false then (s, [])
  else
    match s.room with
    | none => (s, [])
    | some room =>
      let gs := E.createInitialGameState room.gameType room.players
      let resetRoom : RoomState := { room with phase := Phase.playing }
      ({ s with room := some resetRoom, gameState := some gs },
       [HostOutput.roomB resetRoom, HostOutput.gameB gs])

/-- `sendAction` on the host path (the host processes its own action
directly). -/
def sendActionHost {G : Type} (E : GameEngine G) (payload : ActionPayload) (myId : String)
    (s : HostState G) : HostState G × List (HostOutput G) :=
  match s.room with
  | none => (s, [])
  | some currentRoom =>
    if currentRoom.phase = Phase.playing then
      match E.processGameAction currentRoom.gameType s.gameState payload myId with
      | none => (s, [])
      | some newGs =>
        if E.checkGameOver currentRoom.gameType newGs = true ∧
            currentRoom.gameType ≠ GameType.poker then
          let finishedRoom : RoomState := { currentRoom with phase := Phase.finished }
          ({ s with gameState := some newGs, room := some finishedRoom },
           [HostOutput.gameB newGs, HostOutput.roomB finishedRoom])
        else
          ({ s with gameState := some newGs }, [HostOutput.gameB newGs])
    else (s, [])

/-! ## Claim C2: rejected actions are complete no-ops -/

/-- C2: an `action` message is a complete no-op — no state mutation, no
broadcast — whenever the phase is not 'playing', or the sender's channel
has no deviceId mapping, or the engine returns the same reference; hence
repeating the same invalid action any number of times never mutates state
and never broadcasts. -/
theorem rejected_action_is_noop {G : Type} (E : GameEngine G) (conn : Nat)
    (payload : ActionPayload) (s : HostState G) (r : RoomState)
    (hroom : s.room = some r)
    (hrej : r.phase ≠ Phase.playing ∨ mapGet conn s.peerDeviceMap = none ∨
      ∀ d, mapGet conn s.peerDeviceMap = some d →
        E.processGameAction r.gameType s.gameState payload d = none) :
    handleAction E conn payload s = (s, []) ∧
    (∀ n : Nat, (fun t => (handleAction E conn payload t).1)^[n] s = s) ∧
    (∀ n : Nat,
      (handleAction E conn payload ((fun t => (handleAction E conn payload t).1)^[n] s)).2
        = []) := by
  have hstep : handleAction E conn payload s = (s, []) := by
    rcases hrej with hp | hmap | happ
    · simp [handleAction, hroom, hp]
    · by_cases hp : r.phase = Phase.playing
      · simp [handleAction, hroom, hp, hmap]
      · simp [handleAction, hroom, hp]
    · by_cases hp : r.phase = Phase.playing
      · cases hmap : mapGet conn s.peerDeviceMap with
        | none => simp [handleAction, hroom, hp, hmap]
        | some d => simp [handleAction, hroom, hp, hmap, happ d hmap]
      · simp [handleAction, hroom, hp]
  have hiter : ∀ n : Nat, (fun t => (handleAction E conn payload t).1)^[n] s = s := by
    intro n
    induction n with
    | zero => rfl
    | succ m ih =>
      rw [Function.iterate_succ_apply', ih]
      simp [hstep]
  refine ⟨hstep, hiter, ?_⟩
  intro n
  rw [hiter n, hstep]

/-- Evaluation of C2 at a concrete input: a lobby-phase room rejects an
action without mutation or broadcast. -/
theorem rejected_action_is_noop_witness :
    handleAction
      { processGameAction := fun _ _ _ _ => none
        checkGameOver := fun _ _ => false
        createInitialGameState := fun _ _ => (0 : Nat)
        runBotTurn := fun _ _ => none }
      7 (ActionPayload.raw 0)
      { room := some (createRoom ("host-dev") ("Ann") GameType.hearts ("ABCD"))
        gameState := none, connections := [], peerDeviceMap := [], disconnectTimers := [] }
      =
      ({ room := some (createRoom ("host-dev") ("Ann") GameType.hearts ("ABCD"))
         gameState := none, connections := [], peerDeviceMap := [], disconnectTimers := [] },
       []) :=
  (rejected_action_is_noop _ 7 (ActionPayload.raw 0) _
    (createRoom ("host-dev") ("Ann") GameType.hearts ("ABCD")) rfl
    (Or.inl (by decide))).1

/-! ## Claim C6: terminal transition after an adopted action -/

/-- C6: after the host adopts a changed game-state from an action, if the
engine reports the state terminal and the game kind is not poker, the
phase becomes 'finished' and a room-state broadcast follows the
game-state broadcast; for poker the phase stays 'playing' even at
terminal points.  Both the remote (`handleAction`) and the local host
(`sendActionHost`) paths behave this way. -/
theorem adopted_action_terminal_transition {G : Type} (E : GameEngine G) (conn : Nat)
    (payload : ActionPayload) (s : HostState G) (r : RoomState) (d : String) (newGs : G)
    (hroom : s.room = some r) (hphase : r.phase = Phase.playing)
    (hmap : mapGet conn s.peerDeviceMap = some d)
    (happly : E.processGameAction r.gameType s.gameState payload d = some newGs) :
    (E.checkGameOver r.gameType newGs = true → r.gameType ≠ GameType.poker →
      handleAction E conn payload s =
        ({ s with gameState := some newGs, room := some { r with phase := Phase.finished } },
         [HostOutput.gameB newGs, HostOutput.roomB { r with phase := Phase.finished }]) ∧
      sendActionHost E payload d s =
        ({ s with gameState := some newGs, room := some { r with phase := Phase.finished } },
         [HostOutput.gameB newGs, HostOutput.roomB { r with phase := Phase.finished }])) ∧
    (r.gameType = GameType.poker →
      handleAction E conn payload s =
        ({ s with gameState := some newGs }, [HostOutput.gameB newGs]) ∧
      sendActionHost E payload d s =
        ({ s with gameState := some newGs }, [HostOutput.gameB newGs]) ∧
      (handleAction E conn payload s).1.room = some r ∧ r.phase = Phase.playing) := by
  constructor
  · intro hov hnp
    constructor
    · simp [handleAction, hroom, hphase, hmap, happly, hov, hnp]
    · simp [sendActionHost, hroom, hphase, happly, hov, hnp]
  · intro hpk
    have hcond : ¬ (E.checkGameOver r.gameType newGs = true ∧ r.gameType ≠ GameType.poker) := by
      rintro ⟨-, hne⟩
      exact hne hpk
    refine ⟨?_, ?_, ?_, hphase⟩
    · simp [handleAction, hroom, hphase, hmap, happly, hcond]
    · simp [sendActionHost, hroom, hphase, happly, hcond]
    · simp [handleAction, hroom, hphase, hmap, happly, hcond]

/-- Evaluation of C6 at concrete inputs: a terminal hearts action finishes
the room; a terminal poker action leaves it playing. -/
theorem adopted_action_terminal_transition_witness :
    ((handleAction
      { processGameAction := fun _ _ _ _ => some (7 : Nat)
        checkGameOver := fun _ _ => true
        createInitialGameState := fun _ _ => (0 : Nat)
        runBotTurn := fun _ _ => none }
      3 (ActionPayload.raw 1)
      { room := some { roomCode := ("ABCD"), gameType := GameType.hearts,
                       players := [], phase := Phase.playing, hostId := ("h") }
        gameState := some 1, connections := [], peerDeviceMap := [(3, ("d1"))],
        disconnectTimers := [] }).1.room.map (fun rm => rm.phase)) = some Phase.finished ∧
    ((handleAction
      { processGameAction := fun _ _ _ _ => some (7 : Nat)
        checkGameOver := fun _ _ => true
        createInitialGameState := fun _ _ => (0 : Nat)
        runBotTurn := fun _ _ => none }
      3 (ActionPayload.raw 1)
      { room := some { roomCode := ("ABCD"), gameType := GameType.poker,
                       players := [], phase := Phase.playing, hostId := ("h") }
        gameState := some 1, connections := [], peerDeviceMap := [(3, ("d1"))],
        disconnectTimers := [] }).1.room.map (fun rm => rm.phase)) = some Phase.playing := by
  constructor
  · have h := (adopted_action_terminal_transition
      { processGameAction := fun _ _ _ _ => some (7 : Nat)
        checkGameOver := fun _ _ => true
        createInitialGameState := fun _ _ => (0 : Nat)
        runBotTurn := fun _ _ => none }
      3 (ActionPayload.raw 1)
      { room := some { roomCode := ("ABCD"), gameType := GameType.hearts,
                       players := [], phase := Phase.playing, hostId := ("h") }
        gameState := some 1, connections := [], peerDeviceMap := [(3, ("d1"))],
        disconnectTimers := [] }
      { roomCode := ("ABCD"), gameType := GameType.hearts,
        players := [], phase := Phase.playing, hostId := ("h") }
      ("d1") 7 rfl rfl (by decide) rfl).1 rfl (by decide)
    rw [h.1]
    rfl
  · have h := (adopted_action_terminal_transition
      { processGameAction := fun _ _ _ _ => some (7 : Nat)
        checkGameOver := fun _ _ => true
        createInitialGameState := fun _ _ => (0 : Nat)
        runBotTurn := fun _ _ => none }
      3 (ActionPayload.raw 1)
      { room := some { roomCode := ("ABCD"), gameType := GameType.poker,
                       players := [], phase := Phase.playing, hostId := ("h") }
        gameState := some 1, connections := [], peerDeviceMap := [(3, ("d1"))],
        disconnectTimers := [] }
      { roomCode := ("ABCD"), gameType := GameType.poker,
        players := [], phase := Phase.playing, hostId := ("h") }
      ("d1") 7 rfl rfl (by decide) rfl).2 rfl
    rw [h.1]
    rfl

/-! ## Claim C8: poker leave applies a synthetic leave-table action first -/

/-- C8: a `leave` from a mapped device, while the game kind is poker and
the phase is 'playing' with a live game-state, first applies the synthetic
'leave-table' action (broadcasting the resulting game-state if it
changed), and only then removes the player and broadcasts room-state,
dropping the registry and reverse-map entries. -/
theorem leave_poker_synthetic_action {G : Type} (E : GameEngine G) (conn : Nat)
    (s : HostState G) (r : RoomState) (g0 : G) (d : String)
    (hroom : s.room = some r) (hgt : r.gameType = GameType.poker)
    (hphase : r.phase = Phase.playing) (hgs : s.gameState = some g0)
    (hmap : mapGet conn s.peerDeviceMap = some d) :
    handleLeave E conn s =
      ({ s with
          room := some { r with players := r.players.filter (fun p => p.id ≠ d) }
          gameState :=
            match E.processGameAction GameType.poker (some g0) ActionPayload.leaveTable d with
            | some g1 => some g1
            | none => some g0
          connections := mapDel d s.connections
          peerDeviceMap := mapDel conn s.peerDeviceMap },
       (match E.processGameAction GameType.poker (some g0) ActionPayload.leaveTable d with
        | some g1 => [HostOutput.gameB g1]
        | none => []) ++
        [HostOutput.roomB { r with players := r.players.filter (fun p => p.id ≠ d) }]) := by
  cases happ : E.processGameAction GameType.poker (some g0) ActionPayload.leaveTable d with
  | none => simp [handleLeave, hroom, hmap, hgt, hphase, hgs, happ]
  | some g1 => simp [handleLeave, hroom, hmap, hgt, hphase, hgs, happ]

/-- Evaluation of C8 at a concrete input: the synthetic action's
game-state broadcast precedes the room-state broadcast. -/
theorem leave_poker_synthetic_action_witness :
    (handleLeave
      { processGameAction := fun _ _ a _ =>
          match a with
          | ActionPayload.leaveTable => some (9 : Nat)
          | _ => none
        checkGameOver := fun _ _ => false
        createInitialGameState := fun _ _ => (0 : Nat)
        runBotTurn := fun _ _ => none }
      3
      { room := some { roomCode := ("ABCD"), gameType := GameType.poker,
                       players := [{ id := ("d1"), name := ("Bo"), isBot := false,
                                     isHost := false, connected := true }],
                       phase := Phase.playing, hostId := ("h") }
        gameState := some 1, connections := [(("d1"), 3)], peerDeviceMap := [(3, ("d1"))],
        disconnectTimers := [] }).2 =
      [HostOutput.gameB 9,
       HostOutput.roomB { roomCode := ("ABCD"), gameType := GameType.poker, players := [],
                          phase := Phase.playing, hostId := ("h") }] := by
  have h := leave_poker_synthetic_action
    { processGameAction := fun _ _ a _ =>
        match a with
        | ActionPayload.leaveTable => some (9 : Nat)
        | _ => none
      checkGameOver := fun _ _ => false
      createInitialGameState := fun _ _ => (0 : Nat)
      runBotTurn := fun _ _ => none }
    3
    { room := some { roomCode := ("ABCD"), gameType := GameType.poker,
                     players := [{ id := ("d1"), name := ("Bo"), isBot := false,
                                   isHost := false, connected := true }],
                     phase := Phase.playing, hostId := ("h") }
      gameState := some 1, connections := [(("d1"), 3)], peerDeviceMap := [(3, ("d1"))],
      disconnectTimers := [] }
    { roomCode := ("ABCD"), gameType := GameType.poker,
      players := [{ id := ("d1"), name := ("Bo"), isBot := false,
                    isHost := false, connected := true }],
      phase := Phase.playing, hostId := ("h") }
    1 ("d1") rfl rfl rfl rfl (by decide)
  rw [h]
  decide

/-! ## Lemmas about the JS `Map` embedding -/

theorem mapGet_mapSet_self {κ ν : Type} [DecidableEq κ] (k : κ) (v : ν)
    (m : List (κ × ν)) : mapGet k (mapSet k v m) = some v := by
  induction m with
  | nil => simp [mapSet, mapGet]
  | cons e rest ih =>
    by_cases h : e.1 = k
    · simp [mapSet, mapGet, h]
    · simp [mapSet, mapGet, h, ih]

theorem mapGet_eq_none_of_not_mem_keys {κ ν : Type} [DecidableEq κ] (k : κ)
    (m : List (κ × ν)) (h : k ∉ m.map Prod.fst) : mapGet k m = none := by
  induction m with
  | nil => rfl
  | cons e rest ih =>
    simp only [List.map_cons, List.mem_cons, not_or] at h
    obtain ⟨h1, h2⟩ := h
    have he : ¬ e.1 = k := fun hk => h1 hk.symm
    simp [mapGet, he, ih h2]

theorem mapGet_mapDel_self {κ ν : Type} [DecidableEq κ] (k : κ)
    (m : List (κ × ν)) (h : (m.map Prod.fst).Nodup) : mapGet k (mapDel k m) = none := by
  induction m with
  | nil => rfl
  | cons e rest ih =>
    simp only [List.map_cons, List.nodup_cons] at h
    obtain ⟨hnotin, hnd⟩ := h
    by_cases he : e.1 = k
    · subst he
      simp only [mapDel, if_pos rfl]
      exact mapGet_eq_none_of_not_mem_keys _ _ hnotin
    · simp [mapDel, mapGet, he, ih hnd]

theorem mem_keys_mapSet {κ ν : Type} [DecidableEq κ] (a k : κ) (v : ν)
    (m : List (κ × ν)) :
    a ∈ (mapSet k v m).map Prod.fst ↔ a = k ∨ a ∈ m.map Prod.fst := by
  induction m with
  | nil => simp [mapSet]
  | cons e rest ih =>
    by_cases he : e.1 = k
    · subst he
      have hstep : mapSet e.1 v (e :: rest) = (e.1, v) :: rest := by
        simp [mapSet]
      rw [hstep]
      simp only [List.map_cons, List.mem_cons]
      tauto
    · have hstep : mapSet k v (e :: rest) = e :: mapSet k v rest := by
        simp [mapSet, he]
      rw [hstep]
      simp only [List.map_cons, List.mem_cons, ih]
      tauto

theorem nodup_keys_mapSet {κ ν : Type} [DecidableEq κ] (k : κ) (v : ν)
    (m : List (κ × ν)) (h : (m.map Prod.fst).Nodup) :
    ((mapSet k v m).map Prod.fst).Nodup := by
  induction m with
  | nil => simp [mapSet]
  | cons e rest ih =>
    simp only [List.map_cons, List.nodup_cons] at h
    obtain ⟨hnotin, hnd⟩ := h
    by_cases he : e.1 = k
    · subst he
      have hstep : mapSet e.1 v (e :: rest) = (e.1, v) :: rest := by
        simp [mapSet]
      rw [hstep]
      simp only [List.map_cons, List.nodup_cons]
      exact ⟨hnotin, hnd⟩
    · have hstep : mapSet k v (e :: rest) = e :: mapSet k v rest := by
        simp [mapSet, he]
      rw [hstep]
      simp only [List.map_cons, List.nodup_cons]
      refine ⟨?_, ih hnd⟩
      intro hmem
      rcases (mem_keys_mapSet e.1 k v rest).mp hmem with h1 | h1
      · exact he h1
      · exact hnotin h1

theorem find?_map_of_id_preserved (f : Player → Player)
    (hf : ∀ p, (f p).id = p.id) (d : String) (l : List Player) :
    (l.map f).find? (fun p => p.id = d) = (l.find? (fun p => p.id = d)).map f := by
  induction l with
  | nil => rfl
  | cons a rest ih =>
    by_cases h : a.id = d
    · simp [List.find?_cons, hf, h]
    · simp [List.find?_cons, hf, h, ih]

/-! ## Claim C3: two-phase disconnect with a 15 s grace period -/

/-- C3: closing a bound channel immediately removes the registry and
reverse-map entries without touching the player's `connected` flag or
broadcasting, and starts a single-shot 15000 ms timer keyed by the
deviceId; when the timer fires it removes itself from the timer table,
and flips the player to `connected = false` with exactly one room-state
broadcast iff the player still exists and is still marked connected — a
second firing changes nothing and broadcasts nothing. -/
theorem grace_period_close_then_fire {G : Type} (conn : Nat) (d : String)
    (s : HostState G) (r : RoomState)
    (hroom : s.room = some r)
    (hmap : mapGet conn s.peerDeviceMap = some d)
    (hcn : (s.connections.map Prod.fst).Nodup)
    (hpn : (s.peerDeviceMap.map Prod.fst).Nodup)
    (htn : (s.disconnectTimers.map Prod.fst).Nodup) :
    (handleClose conn s).room = s.room ∧
    mapGet d (handleClose conn s).connections = none ∧
    mapGet conn (handleClose conn s).peerDeviceMap = none ∧
    mapGet d (handleClose conn s).disconnectTimers = some GRACE_PERIOD_MS ∧
    GRACE_PERIOD_MS = 15000 ∧
    mapGet d (fireGraceTimer d (handleClose conn s)).1.disconnectTimers = none ∧
    (∀ p, r.players.find? (fun q => q.id = d) = some p → p.connected = true →
      (fireGraceTimer d (handleClose conn s)).1.room =
        some { r with players := r.players.map (fun q =>
          if q.id = d then { q with connected := false } else q) } ∧
      (fireGraceTimer d (handleClose conn s)).2 =
        [HostOutput.roomB { r with players := r.players.map (fun q =>
          if q.id = d then { q with connected := false } else q) }] ∧
      (fireGraceTimer d (fireGraceTimer d (handleClose conn s)).1).1.room =
        (fireGraceTimer d (handleClose conn s)).1.room ∧
      (fireGraceTimer d (fireGraceTimer d (handleClose conn s)).1).2 = []) ∧
    (∀ p, r.players.find? (fun q => q.id = d) = some p → p.connected = false →
      (fireGraceTimer d (handleClose conn s)).1.room = s.room ∧
      (fireGraceTimer d (handleClose conn s)).2 = []) ∧
    (r.players.find? (fun q => q.id = d) = none →
      (fireGraceTimer d (handleClose conn s)).1.room = s.room ∧
      (fireGraceTimer d (handleClose conn s)).2 = []) := by
  have hclose : handleClose conn s =
      { s with
        connections := mapDel d s.connections
        peerDeviceMap := mapDel conn s.peerDeviceMap
        disconnectTimers := mapSet d GRACE_PERIOD_MS s.disconnectTimers } := by
    simp [handleClose, hroom, hmap]
  refine ⟨by rw [hclose], ?_, ?_, ?_, rfl, ?_, ?_, ?_, ?_⟩
  · rw [hclose]
    exact mapGet_mapDel_self _ _ hcn
  · rw [hclose]
    exact mapGet_mapDel_self _ _ hpn
  · rw [hclose]
    exact mapGet_mapSet_self _ _ _
  · rw [hclose]
    simp only [fireGraceTimer, hroom]
    cases hf : r.players.find? (fun q => q.id = d) with
    | none =>
      simp only [hf]
      exact mapGet_mapDel_self _ _ (nodup_keys_mapSet _ _ _ htn)
    | some p =>
      by_cases hc : p.connected
      · simp only [hf, hc, if_pos rfl]
        exact mapGet_mapDel_self _ _ (nodup_keys_mapSet _ _ _ htn)
      · simp only [hf, Bool.not_eq_true] at *
        simp only [hf, hc]
        exact mapGet_mapDel_self _ _ (nodup_keys_mapSet _ _ _ htn)
  · intro p hf hc
    have hfire1 : fireGraceTimer d (handleClose conn s) =
        ({ s with
            connections := mapDel d s.connections
            peerDeviceMap := mapDel conn s.peerDeviceMap
            disconnectTimers := mapDel d (mapSet d GRACE_PERIOD_MS s.disconnectTimers)
            room := some { r with players := r.players.map (fun q =>
              if q.id = d then { q with connected := false } else q) } },
         [HostOutput.roomB { r with players := r.players.map (fun q =>
            if q.id = d then { q with connected := false } else q) }]) := by
      rw [hclose]
      simp [fireGraceTimer, hroom, hf, hc]
    have hpid : p.id = d := by
      have h1 := List.find?_some hf
      simpa using h1
    have hfind2 : (r.players.map (fun q =>
        if q.id = d then { q with connected := false } else q)).find?
          (fun q => q.id = d) = some { p with connected := false } := by
      rw [find?_map_of_id_preserved (fun q =>
        if q.id = d then { q with connected := false } else q)
        (by intro q; by_cases h : q.id = d <;> simp [h]) d r.players]
      rw [hf]
      simp [hpid]
    refine ⟨by rw [hfire1], by rw [hfire1], ?_, ?_⟩
    · rw [hfire1]
      simp [fireGraceTimer, hfind2]
    · rw [hfire1]
      simp [fireGraceTimer, hfind2]
  · intro p hf hc
    rw [hclose]
    constructor
    · simp [fireGraceTimer, hroom, hf, hc]
    · simp [fireGraceTimer, hroom, hf, hc]
  · intro hf
    rw [hclose]
    constructor
    · simp [fireGraceTimer, hroom, hf]
    · simp [fireGraceTimer, hroom, hf]

/-- Evaluation of C3 at a concrete input: closing the channel schedules a
15000 ms timer and firing it flips `connected` with one broadcast. -/
theorem grace_period_close_then_fire_witness :
    mapGet ("d1")
      (handleClose (G := Nat) 3
        { room := some { roomCode := ("ABCD"), gameType := GameType.hearts,
                         players := [{ id := ("d1"), name := ("Bo"), isBot := false,
                                       isHost := false, connected := true }],
                         phase := Phase.lobby, hostId := ("h") }
          gameState := none, connections := [(("d1"), 3)], peerDeviceMap := [(3, ("d1"))],
          disconnectTimers := [] }).disconnectTimers = some 15000 ∧
    (fireGraceTimer ("d1")
      (handleClose (G := Nat) 3
        { room := some { roomCode := ("ABCD"), gameType := GameType.hearts,
                         players := [{ id := ("d1"), name := ("Bo"), isBot := false,
                                       isHost := false, connected := true }],
                         phase := Phase.lobby, hostId := ("h") }
          gameState := none, connections := [(("d1"), 3)], peerDeviceMap := [(3, ("d1"))],
          disconnectTimers := [] })).2 =
      [HostOutput.roomB { roomCode := ("ABCD"), gameType := GameType.hearts,
                          players := [{ id := ("d1"), name := ("Bo"), isBot := false,
                                        isHost := false, connected := false }],
                          phase := Phase.lobby, hostId := ("h") }] := by
  have h := grace_period_close_then_fire (G := Nat) 3 ("d1")
    { room := some { roomCode := ("ABCD"), gameType := GameType.hearts,
                     players := [{ id := ("d1"), name := ("Bo"), isBot := false,
                                   isHost := false, connected := true }],
                     phase := Phase.lobby, hostId := ("h") }
      gameState := none, connections := [(("d1"), 3)], peerDeviceMap := [(3, ("d1"))],
      disconnectTimers := [] }
    { roomCode := ("ABCD"), gameType := GameType.hearts,
      players := [{ id := ("d1"), name := ("Bo"), isBot := false,
                    isHost := false, connected := true }],
      phase := Phase.lobby, hostId := ("h") }
    rfl (by decide) (by decide) (by decide) (by decide)
  refine ⟨h.2.2.2.1, ?_⟩
  have h7 := h.2.2.2.2.2.2.1
    { id := ("d1"), name := ("Bo"), isBot := false, isHost := false, connected := true }
    (by decide) rfl
  rw [h7.2.1]
  rfl

/-! ## Claim C1: join with a known deviceId is a reconnect -/

/-- C1: a `join` whose deviceId matches an existing player cancels any
pending grace-period timer for that device, rebinds the registry entry to
the new channel, updates the player in place (`connected := true`, new
name) without creating a duplicate entry, broadcasts the full room-state,
and — iff the phase is not 'lobby' and a game-state exists — additionally
unicasts the current game-state to the rejoining channel only. -/
theorem join_reconnect_identity {G : Type} (conn : Nat) (d playerName : String)
    (s : HostState G) (r : RoomState) (p0 : Player)
    (hroom : s.room = some r)
    (hfind : r.players.find? (fun p => p.id = d) = some p0)
    (htn : (s.disconnectTimers.map Prod.fst).Nodup) :
    mapGet d (handleJoin conn d playerName s).1.disconnectTimers = none ∧
    mapGet d (handleJoin conn d playerName s).1.connections = some conn ∧
    mapGet conn (handleJoin conn d playerName s).1.peerDeviceMap = some d ∧
    (handleJoin conn d playerName s).1.room =
      some { r with players := r.players.map (fun p =>
        if p.id = d then { p with connected := true, name := playerName } else p) } ∧
    (r.players.map (fun p =>
      if p.id = d then { p with connected := true, name := playerName } else p)).length
      = r.players.length ∧
    { p0 with connected := true, name := playerName } ∈
      r.players.map (fun p =>
        if p.id = d then { p with connected := true, name := playerName } else p) ∧
    (∀ g, r.phase ≠ Phase.lobby → s.gameState = some g →
      (handleJoin conn d playerName s).2 =
        [HostOutput.roomB { r with players := r.players.map (fun p =>
          if p.id = d then { p with connected := true, name := playerName } else p) },
         HostOutput.uni conn g]) ∧
    ((r.phase = Phase.lobby ∨ s.gameState = none) →
      (handleJoin conn d playerName s).2 =
        [HostOutput.roomB { r with players := r.players.map (fun p =>
          if p.id = d then { p with connected := true, name := playerName } else p) }]) := by
  have hpid : p0.id = d := by
    have h1 := List.find?_some hfind
    simpa using h1
  have hp0 : p0 ∈ r.players := List.mem_of_find?_eq_some hfind
  refine ⟨?_, ?_, ?_, ?_, List.length_map .., ?_, ?_, ?_⟩
  · simp only [handleJoin, hroom, hfind]
    exact mapGet_mapDel_self _ _ htn
  · simp only [handleJoin, hroom, hfind]
    exact mapGet_mapSet_self _ _ _
  · simp only [handleJoin, hroom, hfind]
    exact mapGet_mapSet_self _ _ _
  · simp only [handleJoin, hroom, hfind]
  · have hmem := List.mem_map_of_mem
      (fun p => if p.id = d then { p with connected := true, name := playerName } else p) hp0
    simpa [hpid] using hmem
  · intro g hph hgs
    simp [handleJoin, hroom, hfind, hph, hgs]
  · intro hcase
    rcases hcase with hph | hgs
    · simp [handleJoin, hroom, hfind, hph]
    · by_cases hph : r.phase = Phase.lobby
      · simp [handleJoin, hroom, hfind, hph]
      · simp [handleJoin, hroom, hfind, hph, hgs]

/-- Evaluation of C1 at a concrete input: a disconnected player rejoins
mid-game; the pending timer disappears, the entry rebinds, and the host
sends the room-state broadcast followed by a unicast game-state catch-up. -/
theorem join_reconnect_identity_witness :
    mapGet ("d1")
      (handleJoin (G := Nat) 7 ("d1") ("Bo2")
        { room := some { roomCode := ("ABCD"), gameType := GameType.hearts,
                         players := [{ id := ("d1"), name := ("Bo"), isBot := false,
                                       isHost := false, connected := false }],
                         phase := Phase.playing, hostId := ("h") }
          gameState := some 5, connections := [], peerDeviceMap := [],
          disconnectTimers := [(("d1"), 15000)] }).1.disconnectTimers = none ∧
    (handleJoin (G := Nat) 7 ("d1") ("Bo2")
        { room := some { roomCode := ("ABCD"), gameType := GameType.hearts,
                         players := [{ id := ("d1"), name := ("Bo"), isBot := false,
                                       isHost := false, connected := false }],
                         phase := Phase.playing, hostId := ("h") }
          gameState := some 5, connections := [], peerDeviceMap := [],
          disconnectTimers := [(("d1"), 15000)] }).2 =
      [HostOutput.roomB { roomCode := ("ABCD"), gameType := GameType.hearts,
                          players := [{ id := ("d1"), name := ("Bo2"), isBot := false,
                                        isHost := false, connected := true }],
                          phase := Phase.playing, hostId := ("h") },
       HostOutput.uni 7 5] := by
  have h := join_reconnect_identity (G := Nat) 7 ("d1") ("Bo2")
    { room := some { roomCode := ("ABCD"), gameType := GameType.hearts,
                     players := [{ id := ("d1"), name := ("Bo"), isBot := false,
                                   isHost := false, connected := false }],
                     phase := Phase.playing, hostId := ("h") }
      gameState := some 5, connections := [], peerDeviceMap := [],
      disconnectTimers := [(("d1"), 15000)] }
    { roomCode := ("ABCD"), gameType := GameType.hearts,
      players := [{ id := ("d1"), name := ("Bo"), isBot := false,
                    isHost := false, connected := false }],
      phase := Phase.playing, hostId := ("h") }
    { id := ("d1"), name := ("Bo"), isBot := false, isHost := false, connected := false }
    rfl (by decide) (by decide)
  refine ⟨h.1, ?_⟩
  have h7 := h.2.2.2.2.2.2.1 5 (by decide) rfl
  rw [h7]
  rfl

/-! ## Claim C5: host uniqueness invariant -/

/-- Exactly one player has `isHost = true`, and every host-flagged player
carries `hostId` as its id. -/
def hostUnique (rs : RoomState) : Prop :=
  (rs.players.filter (fun p => p.isHost)).length = 1 ∧
  ∀ p ∈ rs.players, p.isHost = true → p.id = rs.hostId

theorem filter_isHost_map_length (f : Player → Player)
    (hf : ∀ p, (f p).isHost = p.isHost) (l : List Player) :
    ((l.map f).filter (fun p => p.isHost)).length = (l.filter (fun p => p.isHost)).length := by
  induction l with
  | nil => rfl
  | cons a rest ih =>
    simp only [List.map_cons, List.filter_cons, hf a]
    by_cases h : a.isHost <;> simp [h, ih]

theorem hostUnique_map (r : RoomState) (f : Player → Player)
    (hf1 : ∀ p, (f p).isHost = p.isHost) (hf2 : ∀ p, (f p).id = p.id)
    (h : hostUnique r) : hostUnique { r with players := r.players.map f } := by
  obtain ⟨h1, h2⟩ := h
  constructor
  · rw [filter_isHost_map_length f hf1]
    exact h1
  · intro p hp hph
    obtain ⟨q, hq, rfl⟩ := List.mem_map.mp hp
    rw [hf2 q]
    exact h2 q hq (by rw [← hf1 q]; exact hph)

theorem hostUnique_append_nonHost (r : RoomState) (q : Player) (hq : q.isHost = false)
    (h : hostUnique r) : hostUnique { r with players := r.players ++ [q] } := by
  obtain ⟨h1, h2⟩ := h
  constructor
  · rw [List.filter_append]
    simp [List.filter_cons, hq, h1]
  · intro p hp hph
    rcases List.mem_append.mp hp with hp1 | hp1
    · exact h2 p hp1 hph
    · have : p = q := by simpa using hp1
      subst this
      rw [hq] at hph
      cases hph

theorem filter_isHost_of_remove (l : List Player) (hostId d : String) (hd : d ≠ hostId)
    (h2 : ∀ p ∈ l, p.isHost = true → p.id = hostId) :
    ((l.filter (fun p => p.id ≠ d)).filter (fun p => p.isHost)).length =
      (l.filter (fun p => p.isHost)).length := by
  have hcomm : (l.filter (fun p => p.id ≠ d)).filter (fun p => p.isHost) =
      (l.filter (fun p => p.isHost)).filter (fun p => decide (p.id ≠ d)) := by
    rw [List.filter_filter, List.filter_filter]
    exact List.filter_congr (fun a _ => by rw [Bool.and_comm])
  have habs : (l.filter (fun p => p.isHost)).filter (fun p => decide (p.id ≠ d)) =
      l.filter (fun p => p.isHost) := by
    rw [List.filter_eq_self]
    intro a ha
    have hh : a.isHost = true := List.of_mem_filter ha
    have haid : a.id = hostId := h2 a (List.mem_of_mem_filter ha) hh
    exact decide_eq_true (by rw [haid]; exact fun hna => hd hna.symm)
  rw [hcomm, habs]

theorem hostUnique_remove_nonHost (r : RoomState) (d : String) (hd : d ≠ r.hostId)
    (h : hostUnique r) :
    hostUnique { r with players := r.players.filter (fun p => p.id ≠ d) } := by
  obtain ⟨h1, h2⟩ := h
  constructor
  · rw [filter_isHost_of_remove r.players r.hostId d hd h2]
    exact h1
  · intro p hp hph
    exact h2 p (List.mem_of_mem_filter hp) hph

theorem hostUnique_same_players (r r' : RoomState) (hp : r'.players = r.players)
    (hh : r'.hostId = r.hostId) (h : hostUnique r) : hostUnique r' := by
  obtain ⟨h1, h2⟩ := h
  constructor
  · rw [hp]; exact h1
  · intro p hpm hph
    rw [hh]
    exact h2 p (by rw [← hp]; exact hpm) hph

/-- C5 (amended): `createRoom` establishes host uniqueness, and every room
operation preserves it — unconditionally for join, action, addBot,
startGame, playAgain and the grace timer, and for leave/removePlayer
provided the removed device id differs from `hostId` (removing the host's
own id falsifies the unamended claim, see the counterexample). -/
theorem hostUnique_invariant {G : Type} (E : GameEngine G) (s : HostState G) (r : RoomState)
    (hr : s.room = some r) (hinv : hostUnique r) :
    (∀ d n gt rc, hostUnique (createRoom d n gt rc)) ∧
    (∀ conn d n r', (handleJoin conn d n s).1.room = some r' → hostUnique r') ∧
    (∀ conn payload r', (handleAction E conn payload s).1.room = some r' → hostUnique r') ∧
    (∀ conn d r', mapGet conn s.peerDeviceMap = some d → d ≠ r.hostId →
      (handleLeave E conn s).1.room = some r' → hostUnique r') ∧
    (∀ b d r', d ≠ r.hostId → (removePlayer b d s).1.room = some r' → hostUnique r') ∧
    (∀ b bid r', (addBot b bid s).1.room = some r' → hostUnique r') ∧
    (∀ b r', (startGame E b s).1.room = some r' → hostUnique r') ∧
    (∀ b r', (playAgain E b s).1.room = some r' → hostUnique r') ∧
    (∀ d r', (fireGraceTimer d s).1.room = some r' → hostUnique r') := by
  refine ⟨?_, ?_, ?_, ?_, ?_, ?_, ?_, ?_, ?_⟩
  · intro d n gt rc
    constructor
    · simp [createRoom, List.filter_cons]
    · intro p hp hph
      simp only [createRoom, List.mem_cons, List.not_mem_nil, or_false] at hp
      subst hp
      rfl
  · intro conn d n r' hres
    cases hfind : r.players.find? (fun p => p.id = d) with
    | some p0 =>
      simp only [handleJoin, hr, hfind] at hres
      injection hres with hres
      subst hres
      exact hostUnique_map r _ (by intro p; by_cases h : p.id = d <;> simp [h])
        (by intro p; by_cases h : p.id = d <;> simp [h]) hinv
    | none =>
      simp only [handleJoin, hr, hfind] at hres
      injection hres with hres
      subst hres
      exact hostUnique_append_nonHost r _ rfl hinv
  · intro conn payload r' hres
    by_cases hp : r.phase = Phase.playing
    · cases hm : mapGet conn s.peerDeviceMap with
      | none =>
        simp [handleAction, hr, hp, hm] at hres
        subst hres
        exact hinv
      | some d =>
        cases happ : E.processGameAction r.gameType s.gameState payload d with
        | none =>
          simp [handleAction, hr, hp, hm, happ] at hres
          subst hres
          exact hinv
        | some g =>
          by_cases hov : E.checkGameOver r.gameType g = true ∧ r.gameType ≠ GameType.poker
          · rw [show handleAction E conn payload s =
                ({ s with gameState := some g, room := some { r with phase := Phase.finished } },
                 [HostOutput.gameB g, HostOutput.roomB { r with phase := Phase.finished }]) from by
                simp [handleAction, hr, hp, hm, happ, hov]] at hres
            simp only [Option.some.injEq] at hres
            subst hres
            exact hostUnique_same_players _ r rfl rfl hinv
          · have hroom2 : (handleAction E conn payload s).1.room = some r := by
              simp [handleAction, hr, hp, hm, happ, hov]
            rw [hroom2] at hres
            injection hres with hres
            subst hres
            exact hinv
    · simp [handleAction, hr, hp] at hres
      subst hres
      exact hinv
  · intro conn d r' hm hd hres
    simp only [handleLeave, hr, hm] at hres
    injection hres with hres
    subst hres
    exact hostUnique_remove_nonHost r d hd hinv
  · intro b d r' hd hres
    cases b with
    | false =>
      simp [removePlayer, hr] at hres
      subst hres
      exact hinv
    | true =>
      simp only [removePlayer, hr] at hres
      injection hres with hres
      subst hres
      exact hostUnique_remove_nonHost r d hd hinv
  · intro b bid r' hres
    cases b with
    | false =>
      simp [addBot, hr] at hres
      subst hres
      exact hinv
    | true =>
      simp only [addBot, hr] at hres
      injection hres with hres
      subst hres
      exact hostUnique_append_nonHost r _ rfl hinv
  · intro b r' hres
    cases b with
    | false =>
      simp [startGame, hr] at hres
      subst hres
      exact hinv
    | true =>
      simp only [startGame, hr] at hres
      injection hres with hres
      subst hres
      exact hostUnique_same_players _ r rfl rfl hinv
  · intro b r' hres
    cases b with
    | false =>
      simp [playAgain, hr] at hres
      subst hres
      exact hinv
    | true =>
      simp only [playAgain, hr] at hres
      injection hres with hres
      subst hres
      exact hostUnique_same_players _ r rfl rfl hinv
  · intro d r' hres
    cases hfind : r.players.find? (fun q => q.id = d) with
    | none =>
      simp only [fireGraceTimer, hr, hfind] at hres
      injection hres with hres
      subst hres
      exact hinv
    | some p =>
      by_cases hc : p.connected
      · simp only [fireGraceTimer, hr, hfind, hc, if_pos rfl] at hres
        injection hres with hres
        subst hres
        exact hostUnique_map r _ (by intro q; by_cases h : q.id = d <;> simp [h])
          (by intro q; by_cases h : q.id = d <;> simp [h]) hinv
      · simp only [fireGraceTimer, hr, hfind] at hres
        rw [if_neg hc] at hres
        injection hres with hres
        subst hres
        exact hinv

/-- C5 counterexample: `removePlayer` applied to the host's own id (the
operation performs no such guard) yields a reachable `RoomState` whose
player list contains no host at all, falsifying the claim that
`removePlayer` preserves host uniqueness unconditionally. -/
theorem removePlayer_host_breaks_hostUnique :
    hostUnique (createRoom ("host-dev") ("Ann") GameType.hearts ("ABCD")) ∧
    (removePlayer (G := Nat) true ("host-dev")
      { room := some (createRoom ("host-dev") ("Ann") GameType.hearts ("ABCD"))
        gameState := none, connections := [], peerDeviceMap := [],
        disconnectTimers := [] }).1.room =
      some { roomCode := ("ABCD"), gameType := GameType.hearts, players := [],
             phase := Phase.lobby, hostId := ("host-dev") } ∧
    ¬ hostUnique { roomCode := ("ABCD"), gameType := GameType.hearts, players := [],
                   phase := Phase.lobby, hostId := ("host-dev") } := by
  refine ⟨⟨by decide, ?_⟩, by decide, ?_⟩
  · intro p hp hph
    simp only [createRoom, List.mem_cons, List.not_mem_nil, or_false] at hp
    subst hp
    rfl
  · intro hcontra
    have h1 := hcontra.1
    simp at h1

/-- Evaluation of the amended C5 at concrete inputs: `addBot` on a fresh
room preserves host uniqueness. -/
theorem hostUnique_invariant_witness :
    hostUnique { roomCode := ("ABCD"), gameType := GameType.hearts,
                 players := [{ id := ("host-dev"), name := ("Ann"), isBot := false,
                               isHost := true, connected := true },
                             { id := ("bot-1"), name := ("Nova"), isBot := true,
                               isHost := false, connected := true }],
                 phase := Phase.lobby, hostId := ("host-dev") } := by
  have h := hostUnique_invariant (G := Nat)
    { processGameAction := fun _ _ _ _ => none
      checkGameOver := fun _ _ => false
      createInitialGameState := fun _ _ => (0 : Nat)
      runBotTurn := fun _ _ => none }
    { room := some (createRoom ("host-dev") ("Ann") GameType.hearts ("ABCD"))
      gameState := none, connections := [], peerDeviceMap := [], disconnectTimers := [] }
    (createRoom ("host-dev") ("Ann") GameType.hearts ("ABCD"))
    rfl
    ⟨by decide, by
      intro p hp hph
      simp only [createRoom, List.mem_cons, List.not_mem_nil, or_false] at hp
      subst hp
      rfl⟩
  exact h.2.2.2.2.2.1 true ("bot-1") _ rfl

/-! ## Client side: `attemptReconnect` (`roomStore.tsx`)

The asynchronous retry loop is embedded as a recursion over the remaining
backoff delays.  What happens inside one attempt (which transport step
fails, whether a `room-state` confirmation or a `host-disconnected`
arrives within the inner 5 s window, or whether the user cancelled) is
the attempt's outcome, an argument of the model; the loop records the
events of each attempt in order. -/

/-- Client-side component of the `RoomProvider` state touched by the
reconnection loop. -/
structure ClientState (G : Type) where
  room : Option RoomState
  gameState : Option G
  error : Option String
  reconnecting : Bool
deriving DecidableEq, Repr

/-- Possible outcomes of one reconnection attempt. -/
inductive AttemptOutcome where
  /-- a `room-state` reply confirmed the reconnection within the window -/
  | roomState (rs : RoomState)
  /-- `host-disconnected` was received (clears the room reference) -/
  | hostGone
  /-- `reconnectingRef` was observed false after the delay (explicit leave) -/
  | cancelled
  /-- `createClientPeer` rejected -/
  | failCreate
  /-- `connectToPeer` rejected -/
  | failConnect
  /-- the inner 5 s timeout, an `error` message, or a channel close -/
  | failWait
deriving DecidableEq, Repr

/-- Observable steps of the reconnection loop. -/
inductive RecEvent where
  | delayEv (ms : Nat)
  | destroyOldPeer
  | createPeerEv
  | connectEv
  | sendJoinEv (playerName deviceId : String)
  | waitRoomStateEv (timeoutMs : Nat)
deriving DecidableEq, Repr

/-- `MAX_ATTEMPTS`. -/
def MAX_ATTEMPTS : Nat := 3

/-- `BACKOFF_MS`. -/
def BACKOFF_MS : List Nat := [1000, 2000, 4000]

/-- The inner `setTimeout(() => reject(new Error('Timeout')), 5000)` bound. -/
def RECONNECT_WAIT_MS : Nat := 5000

/-- The events of one attempt with backoff delay `b`: sleep, tear down the
old peer, create a fresh one, connect, resend `join` with the stored name
and deviceId, and wait (at most 5 s) for the confirming `room-state` —
truncated at the step where the attempt's outcome cuts it short. -/
def attemptEvents (b : Nat) (playerName deviceId : String) : AttemptOutcome → List RecEvent
  | AttemptOutcome.cancelled => [RecEvent.delayEv b]
  | AttemptOutcome.failCreate => [RecEvent.delayEv b, RecEvent.destroyOldPeer,
      RecEvent.createPeerEv]
  | AttemptOutcome.failConnect => [RecEvent.delayEv b, RecEvent.destroyOldPeer,
      RecEvent.createPeerEv, RecEvent.connectEv]
  | _ => [RecEvent.delayEv b, RecEvent.destroyOldPeer, RecEvent.createPeerEv,
      RecEvent.connectEv, RecEvent.sendJoinEv playerName deviceId,
      RecEvent.waitRoomStateEv RECONNECT_WAIT_MS]

/-- The `for (let attempt = 0; ...)` loop body of `attemptReconnect`,
recursing over the remaining backoff delays. -/
def reconnectLoop {G : Type} (outcomes : Nat → AttemptOutcome) (playerName deviceId : String) :
    List Nat → Nat → ClientState G → ClientState G × List RecEvent
  | [], _, _ =>
    -- All attempts failed.
    ({ room := none, gameState := none, error := some ("Lost connection to host"),
       reconnecting := false }, [])
  | b :: rest, i, c =>
    let evs := attemptEvents b playerName deviceId (outcomes i)
    match outcomes i with
    | AttemptOutcome.roomState rs => ({ c with room := some rs, reconnecting := false }, evs)
    | AttemptOutcome.hostGone =>
        ({ room := none, gameState := none, error := some ("Host disconnected"),
           reconnecting := false }, evs)
    | AttemptOutcome.cancelled => ({ c with reconnecting := false }, evs)
    | _ =>
        let next := reconnectLoop outcomes playerName deviceId rest (i + 1) c
        (next.1, evs ++ next.2)

/-- `attemptReconnect`: guarded by the module-level reconnecting flag and a
present room code, then the bounded retry loop. -/
def attemptReconnect {G : Type} (outcomes : Nat → AttemptOutcome)
    (playerName deviceId : String) (c : ClientState G) : ClientState G × List RecEvent :=
  if c.reconnecting then (c, [])
  else
    match c.room with
    | none => (c, [])
    | some _ => reconnectLoop outcomes playerName deviceId BACKOFF_MS 0
        { c with reconnecting := true }

/-- The backoff delays slept by a run of the loop, in order. -/
def delaysOf (evs : List RecEvent) : List Nat :=
  evs.filterMap (fun e => match e with | RecEvent.delayEv m => some m | _ => none)

theorem delaysOf_attemptEvents (b : Nat) (n dI : String) (o : AttemptOutcome) :
    delaysOf (attemptEvents b n dI o) = [b] := by
  cases o <;> rfl

theorem delaysOf_nil : delaysOf [] = [] := rfl

theorem delaysOf_append (xs ys : List RecEvent) :
    delaysOf (xs ++ ys) = delaysOf xs ++ delaysOf ys :=
  List.filterMap_append ..

theorem reconnectLoop_delays_take {G : Type} (outcomes : Nat → AttemptOutcome)
    (n dI : String) :
    ∀ (bs : List Nat) (i : Nat) (c : ClientState G),
      ∃ k, delaysOf (reconnectLoop outcomes n dI bs i c).2 = bs.take k := by
  intro bs
  induction bs with
  | nil =>
    intro i c
    exact ⟨0, rfl⟩
  | cons b rest ih =>
    intro i c
    cases ho : outcomes i with
    | roomState rs =>
      refine ⟨1, ?_⟩
      simp [reconnectLoop, ho, delaysOf_attemptEvents]
    | hostGone =>
      refine ⟨1, ?_⟩
      simp [reconnectLoop, ho, delaysOf_attemptEvents]
    | cancelled =>
      refine ⟨1, ?_⟩
      simp [reconnectLoop, ho, delaysOf_attemptEvents]
    | failCreate =>
      obtain ⟨k, hk⟩ := ih (i + 1) c
      refine ⟨k + 1, ?_⟩
      simp only [reconnectLoop, ho]
      rw [delaysOf_append, delaysOf_attemptEvents, hk]
      rfl
    | failConnect =>
      obtain ⟨k, hk⟩ := ih (i + 1) c
      refine ⟨k + 1, ?_⟩
      simp only [reconnectLoop, ho]
      rw [delaysOf_append, delaysOf_attemptEvents, hk]
      rfl
    | failWait =>
      obtain ⟨k, hk⟩ := ih (i + 1) c
      refine ⟨k + 1, ?_⟩
      simp only [reconnectLoop, ho]
      rw [delaysOf_append, delaysOf_attemptEvents, hk]
      rfl

/-- C4: the reconnection loop performs at most 3 attempts whose pre-attempt
delays are exactly the prefix of [1000, 2000, 4000] ms that was reached;
each full attempt destroys the old peer, creates a fresh one, connects,
resends `join` with the stored display name and deviceId and waits at most
5000 ms for a `room-state` reply; `host-disconnected` terminates the loop
immediately at any attempt index with the local room cleared; and if all
attempts fail the loop ends with the 'Lost connection to host' error and
cleared room and game state. -/
theorem reconnect_bounded_and_terminal {G : Type} (outcomes : Nat → AttemptOutcome)
    (playerName deviceId : String) (c : ClientState G) (r0 : RoomState)
    (hrec : c.reconnecting = false) (hroom : c.room = some r0) :
    MAX_ATTEMPTS = 3 ∧ BACKOFF_MS = [1000, 2000, 4000] ∧ RECONNECT_WAIT_MS = 5000 ∧
    (∃ k, k ≤ 3 ∧ delaysOf (attemptReconnect outcomes playerName deviceId c).2
        = BACKOFF_MS.take k) ∧
    (∀ b rs, attemptEvents b playerName deviceId (AttemptOutcome.roomState rs) =
      [RecEvent.delayEv b, RecEvent.destroyOldPeer, RecEvent.createPeerEv, RecEvent.connectEv,
       RecEvent.sendJoinEv playerName deviceId, RecEvent.waitRoomStateEv 5000]) ∧
    (∀ (b : Nat) (rest : List Nat) (i : Nat) (c' : ClientState G),
      outcomes i = AttemptOutcome.hostGone →
      reconnectLoop outcomes playerName deviceId (b :: rest) i c' =
        ({ room := none, gameState := none, error := some ("Host disconnected"),
           reconnecting := false },
         attemptEvents b playerName deviceId AttemptOutcome.hostGone)) ∧
    ((∀ i, i < 3 →
        outcomes i = AttemptOutcome.failCreate ∨ outcomes i = AttemptOutcome.failConnect ∨
        outcomes i = AttemptOutcome.failWait) →
      (attemptReconnect outcomes playerName deviceId c).1.room = none ∧
      (attemptReconnect outcomes playerName deviceId c).1.gameState = none ∧
      (attemptReconnect outcomes playerName deviceId c).1.error =
        some ("Lost connection to host") ∧
      delaysOf (attemptReconnect outcomes playerName deviceId c).2 = [1000, 2000, 4000]) := by
  have hA : attemptReconnect outcomes playerName deviceId c =
      reconnectLoop outcomes playerName deviceId BACKOFF_MS 0
        { c with reconnecting := true } := by
    simp [attemptReconnect, hrec, hroom]
  refine ⟨rfl, rfl, rfl, ?_, fun b rs => rfl, ?_, ?_⟩
  · obtain ⟨k, hk⟩ := reconnectLoop_delays_take outcomes playerName deviceId BACKOFF_MS 0
      { c with reconnecting := true }
    by_cases hk3 : k ≤ 3
    · exact ⟨k, hk3, by rw [hA]; exact hk⟩
    · refine ⟨3, Nat.le_refl 3, ?_⟩
      rw [hA, hk]
      have hlen : BACKOFF_MS.length ≤ k := by
        simp only [BACKOFF_MS, List.length_cons, List.length_nil]
        omega
      rw [List.take_of_length_le hlen]
      rfl
  · intro b rest i c' ho
    simp [reconnectLoop, ho]
  · intro hfail
    have h0 := hfail 0 (by decide)
    have h1 := hfail 1 (by decide)
    have h2 := hfail 2 (by decide)
    rw [hA]
    rcases h0 with h0 | h0 | h0 <;> rcases h1 with h1 | h1 | h1 <;>
      rcases h2 with h2 | h2 | h2 <;>
      simp [BACKOFF_MS, reconnectLoop, h0, h1, h2, delaysOf_append,
        delaysOf_attemptEvents, delaysOf_nil]

/-- Evaluation of C4 at a concrete input: three timed-out attempts end with
the terminal error, cleared state, and delays 1000/2000/4000. -/
theorem reconnect_bounded_and_terminal_witness :
    (attemptReconnect (G := Nat) (fun _ => AttemptOutcome.failWait) ("Bo") ("d1")
      { room := some { roomCode := ("ABCD"), gameType := GameType.hearts, players := [],
                       phase := Phase.playing, hostId := ("h") }
        gameState := some 5, error := none, reconnecting := false }).1.error =
      some ("Lost connection to host") ∧
    delaysOf (attemptReconnect (G := Nat) (fun _ => AttemptOutcome.failWait) ("Bo") ("d1")
      { room := some { roomCode := ("ABCD"), gameType := GameType.hearts, players := [],
                       phase := Phase.playing, hostId := ("h") }
        gameState := some 5, error := none, reconnecting := false }).2 =
      [1000, 2000, 4000] := by
  have h := reconnect_bounded_and_terminal (G := Nat) (fun _ => AttemptOutcome.failWait)
    ("Bo") ("d1")
    { room := some { roomCode := ("ABCD"), gameType := GameType.hearts, players := [],
                     phase := Phase.playing, hostId := ("h") }
      gameState := some 5, error := none, reconnecting := false }
    { roomCode := ("ABCD"), gameType := GameType.hearts, players := [],
      phase := Phase.playing, hostId := ("h") }
    rfl rfl
  have h6 := h.2.2.2.2.2.2 (fun i _ => Or.inr (Or.inr rfl))
  exact ⟨h6.2.2.1, h6.2.2.2⟩

/-! ## Bot turn scheduling (the `useEffect` over `[gameState, isHost, room]`)

Only the fields that the scheduling effect inspects are embedded; game
phases and streets keep their source string values.  The per-game bot
turn functions remain part of the opaque engine. -/

/-- The hearts fields read by the scheduler (`HeartsState`). -/
structure HeartsView where
  gameOver : Bool
  trickWinner : Option String
  phase : String
  players : List (String × Bool)
  passSelections : List (String × Nat)
  passConfirmed : List String
  currentPlayerIndex : Nat
deriving DecidableEq, Repr

/-- The fields of `RoundResult` read by the scheduler. -/
structure RoundResultView where
  triggerPlayerIds : List String
  pulledTrigger : List String
deriving DecidableEq, Repr

/-- One entry of `LiarsDiceState.players` as read by the scheduler:
id, `isBot`, `alive`. -/
structure LDPlayerView where
  id : String
  isBot : Bool
  alive : Bool
deriving DecidableEq, Repr

/-- The Liar's-Dice fields read by the scheduler (`LiarsDiceState`). -/
structure LiarsDiceView where
  phase : String
  players : List LDPlayerView
  roundStarterIndex : Nat
  currentPlayerIndex : Nat
  roundResult : Option RoundResultView
deriving DecidableEq, Repr

/-- One entry of `PokerState.players` as read by the scheduler. -/
structure PokerPlayerView where
  isBot : Bool
  folded : Bool
  allIn : Bool
deriving DecidableEq, Repr

/-- The poker fields read by the scheduler (`PokerState`). -/
structure PokerView where
  gameOver : Bool
  street : String
  players : List PokerPlayerView
  currentPlayerIndex : Nat
deriving DecidableEq, Repr

/-- The opaque game-state as seen by the scheduler: the three host-paced
game kinds expose their scheduling fields, everything else is opaque. -/
inductive GameV where
  | heartsV (hs : HeartsView)
  | liarsV (lds : LiarsDiceView)
  | pokerV (ps : PokerView)
  | otherV (n : Nat)
deriving DecidableEq, Repr

/-- `BOT_PLAY_DELAY`. -/
def BOT_PLAY_DELAY : Nat := 800

/-- `TRICK_DISPLAY_DELAY`. -/
def TRICK_DISPLAY_DELAY : Nat := 2000

/-- `LIARS_DICE_BOT_DELAY`. -/
def LIARS_DICE_BOT_DELAY : Nat := 1200

/-- `LIARS_DICE_REVEAL_DELAY`. -/
def LIARS_DICE_REVEAL_DELAY : Nat := 2500

/-- `LIARS_DICE_TRIGGER_DELAY`. -/
def LIARS_DICE_TRIGGER_DELAY : Nat := 1500

/-- `LIARS_DICE_NEXT_ROUND_DELAY`. -/
def LIARS_DICE_NEXT_ROUND_DELAY : Nat := 2000

/-- `POKER_BOT_DELAY`. -/
def POKER_BOT_DELAY : Nat := 1000

/-- A scheduled `botTimerRef` callback, tagged with its delay. -/
inductive BotCallback where
  /-- hearts: resolve the completed trick after `TRICK_DISPLAY_DELAY` -/
  | resolveTrickCb (delay : Nat)
  /-- hearts passing phase: one `runSingleBotTurn('hearts', ...)` -/
  | heartsPassCb (delay : Nat)
  /-- hearts playing phase: one `runSingleBotTurn('hearts', ...)` plus
  the game-over check -/
  | heartsPlayCb (delay : Nat)
  /-- Liar's Dice: one `runSingleBotTurn('liars-dice', ...)` plus the
  game-over check -/
  | ldStepCb (delay : Nat)
  /-- Liar's Dice: the revealing→revolver display transition -/
  | ldRevealCb (delay : Nat)
  /-- poker: one `runSingleBotTurn('poker', ...)` -/
  | pokerStepCb (delay : Nat)
deriving DecidableEq, Repr

/-- The decision part of the scheduling effect: which single callback (if
any) to schedule for the current `isHost`/`room`/`gameState`. -/
def botEffect (isHost : Bool) (room : Option RoomState) (gameState : Option GameV) :
    Option BotCallback :=
  if isHost = false then none
  else
    match room with
    | none => none
    | some rm =>
      if rm.phase ≠ Phase.playing then none
      else
        match gameState with
        | none => none
        | some gv =>
          match rm.gameType, gv with
          | GameType.hearts, GameV.heartsV hs =>
            if hs.gameOver then none
            else if hs.trickWinner.isSome then
              some (BotCallback.resolveTrickCb TRICK_DISPLAY_DELAY)
            else if hs.phase = ("passing") then
              if hs.players.any (fun p => p.2 &&
                  (match mapGet p.1 hs.passSelections with
                   | none => true
                   | some n => decide (n < 3) || !(hs.passConfirmed.contains p.1))) then
                some (BotCallback.heartsPassCb 100)
              else none
            else if hs.phase = ("playing") then
              match hs.players.get? hs.currentPlayerIndex with
              | some cp => if cp.2 then some (BotCallback.heartsPlayCb BOT_PLAY_DELAY) else none
              | none => none
            else none
          | GameType.liarsDice, GameV.liarsV lds =>
            if lds.phase = ("gameOver") then none
            else if lds.phase = ("rolling") then
              match lds.players.get? lds.roundStarterIndex with
              | some st => if st.isBot then some (BotCallback.ldStepCb 500) else none
              | none => none
            else if lds.phase = ("bidding") then
              match lds.players.get? lds.currentPlayerIndex with
              | some cp =>
                if cp.isBot && cp.alive then some (BotCallback.ldStepCb LIARS_DICE_BOT_DELAY)
                else none
              | none => none
            else if lds.phase = ("revealing") then
              some (BotCallback.ldRevealCb LIARS_DICE_REVEAL_DELAY)
            else if lds.phase = ("revolver") then
              match lds.roundResult with
              | none => none
              | some rr =>
                if rr.triggerPlayerIds.any (fun pid =>
                    !(rr.pulledTrigger.contains pid) &&
                    (match lds.players.find? (fun p => p.id = pid) with
                     | some p => p.isBot
                     | none => false)) then
                  some (BotCallback.ldStepCb LIARS_DICE_TRIGGER_DELAY)
                else if rr.triggerPlayerIds.all (fun pid => rr.pulledTrigger.contains pid) then
                  some (BotCallback.ldStepCb LIARS_DICE_NEXT_ROUND_DELAY)
                else none
            else none
          | GameType.poker, GameV.pokerV ps =>
            if ps.gameOver || ps.street = ("showdown") then none
            else
              match ps.players.get? ps.currentPlayerIndex with
              | some cp =>
                if cp.isBot && !cp.folded && !cp.allIn then
                  some (BotCallback.pokerStepCb POKER_BOT_DELAY)
                else none
              | none => none
          | _, _ => none

/-- One run of the scheduling effect: any pending timer is cleared
(`clearTimeout(botTimerRef.current)`), then at most one new callback is
scheduled. -/
def botEffectStep (pending : List BotCallback) (isHost : Bool) (room : Option RoomState)
    (gameState : Option GameV) : List BotCallback :=
  let _ := pending
  (botEffect isHost room gameState).toList

/-- Firing a scheduled callback (the `setTimeout` bodies of the effect). -/
def fireBotCallback (E : GameEngine GameV) :
    BotCallback → HostState GameV → HostState GameV × List (HostOutput GameV)
  | BotCallback.resolveTrickCb _, s =>
    match s.gameState, s.room with
    | some (GameV.heartsV hs), some currentRoom =>
      if hs.trickWinner.isSome = false then (s, [])
      else
        match E.processGameAction GameType.hearts (some (GameV.heartsV hs))
            ActionPayload.resolveTrick ("") with
        | none => (s, [])
        | some resolved =>
          if E.checkGameOver GameType.hearts resolved then
            let finishedRoom : RoomState := { currentRoom with phase := Phase.finished }
            ({ s with gameState := some resolved, room := some finishedRoom },
             [HostOutput.gameB resolved, HostOutput.roomB finishedRoom])
          else ({ s with gameState := some resolved }, [HostOutput.gameB resolved])
    | _, _ => (s, [])
  | BotCallback.heartsPassCb _, s =>
    match s.gameState, s.room with
    | some gv, some _ =>
      match runSingleBotTurn E GameType.hearts gv with
      | none => (s, [])
      | some next => ({ s with gameState := some next }, [HostOutput.gameB next])
    | _, _ => (s, [])
  | BotCallback.heartsPlayCb _, s =>
    match s.gameState, s.room with
    | some gv, some currentRoom =>
      match runSingleBotTurn E GameType.hearts gv with
      | none => (s, [])
      | some next =>
        if E.checkGameOver GameType.hearts next then
          let finishedRoom : RoomState := { currentRoom with phase := Phase.finished }
          ({ s with gameState := some next, room := some finishedRoom },
           [HostOutput.gameB next, HostOutput.roomB finishedRoom])
        else ({ s with gameState := some next }, [HostOutput.gameB next])
    | _, _ => (s, [])
  | BotCallback.ldStepCb _, s =>
    match s.gameState, s.room with
    | some gv, some currentRoom =>
      match runSingleBotTurn E GameType.liarsDice gv with
      | none => (s, [])
      | some next =>
        if E.checkGameOver GameType.liarsDice next then
          let finishedRoom : RoomState := { currentRoom with phase := Phase.finished }
          ({ s with gameState := some next, room := some finishedRoom },
           [HostOutput.gameB next, HostOutput.roomB finishedRoom])
        else ({ s with gameState := some next }, [HostOutput.gameB next])
    | _, _ => (s, [])
  | BotCallback.ldRevealCb _, s =>
    match s.gameState, s.room with
    | some (GameV.liarsV lds), some _ =>
      if lds.phase = ("revealing") then
        ({ s with gameState := some (GameV.liarsV { lds with phase := ("revolver") }) },
         [HostOutput.gameB (GameV.liarsV { lds with phase := ("revolver") })])
      else (s, [])
    | _, _ => (s, [])
  | BotCallback.pokerStepCb _, s =>
    match s.gameState, s.room with
    | some gv, some _ =>
      match runSingleBotTurn E GameType.poker gv with
      | none => (s, [])
      | some next => ({ s with gameState := some next }, [HostOutput.gameB next])
    | _, _ => (s, [])

/-- C7: one scheduled bot invocation advances the game-state by exactly one
call of `runSingleBotTurn` (adopting its result when it differs, otherwise
leaving the state untouched) — never an iterated turn sequence — and every
run of the scheduling effect first cancels whatever timer was pending, so
at most one bot invocation is ever pending. -/
theorem bot_scheduler_single_step_and_cancel (E : GameEngine GameV) (s : HostState GameV)
    (gv : GameV) (rm : RoomState)
    (hgs : s.gameState = some gv) (hrm : s.room = some rm) :
    (∀ (pending pending' : List BotCallback) (h : Bool) (room : Option RoomState)
        (gs : Option GameV),
      botEffectStep pending h room gs = botEffectStep pending' h room gs) ∧
    (∀ (pending : List BotCallback) (h : Bool) (room : Option RoomState) (gs : Option GameV),
      (botEffectStep pending h room gs).length ≤ 1) ∧
    (∀ d, (fireBotCallback E (BotCallback.heartsPassCb d) s).1.gameState =
      (match runSingleBotTurn E GameType.hearts gv with
       | none => some gv
       | some next => some next)) ∧
    (∀ d, (fireBotCallback E (BotCallback.heartsPlayCb d) s).1.gameState =
      (match runSingleBotTurn E GameType.hearts gv with
       | none => some gv
       | some next => some next)) ∧
    (∀ d, (fireBotCallback E (BotCallback.ldStepCb d) s).1.gameState =
      (match runSingleBotTurn E GameType.liarsDice gv with
       | none => some gv
       | some next => some next)) ∧
    (∀ d, (fireBotCallback E (BotCallback.pokerStepCb d) s).1.gameState =
      (match runSingleBotTurn E GameType.poker gv with
       | none => some gv
       | some next => some next)) ∧
    (∀ gt g, runSingleBotTurn E gt g =
      if E.checkGameOver gt g then none else E.runBotTurn gt g) := by
  refine ⟨fun _ _ _ _ _ => rfl, ?_, ?_, ?_, ?_, ?_, fun gt g => rfl⟩
  · intro pending h room gs
    unfold botEffectStep
    cases botEffect h room gs <;> simp
  · intro d
    cases hr : runSingleBotTurn E GameType.hearts gv with
    | none => simp [fireBotCallback, hgs, hrm, hr]
    | some next => simp [fireBotCallback, hgs, hrm, hr]
  · intro d
    cases hr : runSingleBotTurn E GameType.hearts gv with
    | none => simp [fireBotCallback, hgs, hrm, hr]
    | some next =>
      cases hov : E.checkGameOver GameType.hearts next <;>
        simp [fireBotCallback, hgs, hrm, hr, hov]
  · intro d
    cases hr : runSingleBotTurn E GameType.liarsDice gv with
    | none => simp [fireBotCallback, hgs, hrm, hr]
    | some next =>
      cases hov : E.checkGameOver GameType.liarsDice next <;>
        simp [fireBotCallback, hgs, hrm, hr, hov]
  · intro d
    cases hr : runSingleBotTurn E GameType.poker gv with
    | none => simp [fireBotCallback, hgs, hrm, hr]
    | some next => simp [fireBotCallback, hgs, hrm, hr]

/-- Evaluation of C7 at a concrete input: a fired poker bot callback
adopts exactly the single-step result. -/
theorem bot_scheduler_single_step_and_cancel_witness :
    (fireBotCallback
      { processGameAction := fun _ _ _ _ => none
        checkGameOver := fun _ _ => false
        createInitialGameState := fun _ _ => GameV.otherV 0
        runBotTurn := fun _ _ => some (GameV.otherV 9) }
      (BotCallback.pokerStepCb 1000)
      { room := some { roomCode := ("ABCD"), gameType := GameType.poker, players := [],
                       phase := Phase.playing, hostId := ("h") }
        gameState := some (GameV.otherV 1), connections := [], peerDeviceMap := [],
        disconnectTimers := [] }).1.gameState = some (GameV.otherV 9) := by
  have h := (bot_scheduler_single_step_and_cancel
    { processGameAction := fun _ _ _ _ => none
      checkGameOver := fun _ _ => false
      createInitialGameState := fun _ _ => GameV.otherV 0
      runBotTurn := fun _ _ => some (GameV.otherV 9) }
    { room := some { roomCode := ("ABCD"), gameType := GameType.poker, players := [],
                     phase := Phase.playing, hostId := ("h") }
      gameState := some (GameV.otherV 1), connections := [], peerDeviceMap := [],
      disconnectTimers := [] }
    (GameV.otherV 1)
    { roomCode := ("ABCD"), gameType := GameType.poker, players := [],
      phase := Phase.playing, hostId := ("h") }
    rfl rfl).2.2.2.2.2.1 1000
  rw [h]
  rfl
